import Mathlib

/-!
Verification of `pdf_invoice_scanner.py`, a two-step pipeline that extracts
text from a PDF invoice, sends it to a chat-completion service, strips an
optional markdown code fence from the response, and parses the remainder as
JSON.  The development shallowly embeds each operation of the source file:
pure text manipulation becomes Lean functions on `String`/`List Char`; the
fallible steps (construction, extraction, the remote call, JSON parsing)
become `Except`-valued functions; the CLI entry point becomes a function from
an abstract environment (file-system predicate, environment variables, page
texts, remote response) to a record of its observable effects (exit code,
output channels, file writes, call counts).

Scope notes for the embedded Python standard-library behaviour:
* `str.strip()` is modelled over the ASCII whitespace characters; exotic
  Unicode whitespace is outside the model.
* JSON numbers are modelled as integers; floating-point literals, `NaN` and
  `Infinity` are outside the model, and `json.loads` is modelled as rejecting
  inputs that use them.
* Lone UTF-16 surrogate escapes in JSON strings (accepted by Python) are
  rejected by the model, since Lean characters cannot represent them.
-/

/-- The whitespace characters removed by Python `str.strip()` (ASCII part). -/
def isPyWs (c : Char) : Bool :=
  c.toNat == 32 || c.toNat == 9 || c.toNat == 10 || c.toNat == 13
    || c.toNat == 11 || c.toNat == 12

/-- Character-list version of Python `str.strip()`. -/
def pyStripChars (l : List Char) : List Char :=
  ((l.dropWhile isPyWs).reverse.dropWhile isPyWs).reverse

/-- Python `str.strip()`: remove leading and trailing whitespace. -/
def pyStrip (s : String) : String :=
  String.mk (pyStripChars s.data)

/-- Python `str.startswith(p)`. -/
def pyStartsWith (s p : String) : Bool :=
  p.data.isPrefixOf s.data

/-- Character-list version of Python `str.split('\n')`. -/
def splitNlChars : List Char → List (List Char)
  | [] => [[]]
  | c :: cs =>
    if c = '\n' then [] :: splitNlChars cs
    else
      match splitNlChars cs with
      | [] => [[c]]
      | l :: ls => (c :: l) :: ls

/-- Python `str.split('\n')`. -/
def pySplitNl (s : String) : List String :=
  (splitNlChars s.data).map String.mk

/-- Python `sep.join(xs)`. -/
def pyJoin (sep : String) : List String → String
  | [] => ""
  | [x] => x
  | x :: y :: xs => x ++ sep ++ pyJoin sep (y :: xs)

/-- Python slicing `s[n:]` (drop the first `n` characters). -/
def strDropN (s : String) (n : Nat) : String :=
  String.mk (s.data.drop n)

/-- The response post-processing inside `parse_invoice_to_json` (lines
113-120 of the source): strip surrounding whitespace; if the text starts
with a code fence, drop the first and last lines when there are more than
two lines; if the result starts with `json`, drop those four characters and
strip again. -/
def strip_code_fences (s : String) : String :=
  let json_text := pyStrip s
  if pyStartsWith json_text "```" then
    let lines := pySplitNl json_text
    let json_text2 := if lines.length > 2 then pyJoin "\n" ((lines.drop 1).dropLast) else json_text
    if pyStartsWith json_text2 "json" then pyStrip (strDropN json_text2 4) else json_text2
  else json_text

/-- JSON values as produced by Python `json.loads`: objects are kept as
ordered association lists, numbers are modelled as integers (floating-point
literals are outside the model). -/
inductive Json where
  | null
  | bool (b : Bool)
  | num (n : Int)
  | str (s : String)
  | arr (elems : List Json)
  | obj (entries : List (String × Json))

/-- Whether a JSON value is an object (a Python `dict`). -/
def Json.isObj : Json → Bool
  | .obj _ => true
  | _ => false

/-- The decimal digit character for a value below ten, from its code
point. -/
def digitChar (d : Nat) : Char :=
  Char.ofNat (48 + d)

/-- Decimal digits of `n`, most significant first, computed with an explicit
fuel so that the definition reduces by `rfl`. -/
def natCharsAux : Nat → Nat → List Char
  | 0, _ => []
  | fuel + 1, n =>
    if n < 10 then [digitChar n]
    else natCharsAux fuel (n / 10) ++ [digitChar (n % 10)]

/-- Decimal representation of a natural number, as Python `str` prints it. -/
def natChars (n : Nat) : List Char :=
  natCharsAux (n + 1) n

/-- Decimal representation of an integer, as Python `str` prints it. -/
def intChars (n : Int) : List Char :=
  if n < 0 then '-' :: natChars n.natAbs else natChars n.toNat

/-- The lowercase hexadecimal digit character for a value below sixteen,
from its code point. -/
def hexDigitChar (d : Nat) : Char :=
  if d < 10 then Char.ofNat (48 + d) else Char.ofNat (87 + d)

/-- How Python `json.dumps` (with `ensure_ascii=False`) escapes one string
character: the two mandatory escapes, the five short control escapes, a
`\u00XX` escape for the remaining control characters, and everything else
verbatim. -/
def escChar (c : Char) : List Char :=
  if c = '"' then ['\\', '"']
  else if c = '\\' then ['\\', '\\']
  else if c = '\n' then ['\\', 'n']
  else if c = '\r' then ['\\', 'r']
  else if c = '\t' then ['\\', 't']
  else if c = '\x08' then ['\\', 'b']
  else if c = '\x0c' then ['\\', 'f']
  else if c.toNat < 0x20 then
    '\\' :: 'u' :: '0' :: '0' :: [hexDigitChar (c.toNat / 16), hexDigitChar (c.toNat % 16)]
  else [c]

/-- Escape a whole string body for `json.dumps`. -/
def escString : List Char → List Char
  | [] => []
  | c :: cs => escChar c ++ escString cs

/-- `n` space characters, the indentation emitted by `json.dumps(indent=2)`. -/
def sp (n : Nat) : List Char :=
  List.replicate n ' '

mutual

/-- Characters printed by Python `json.dumps(v, indent=2, ensure_ascii=False)`
for a value nested at indentation level `lvl`. -/
def dChars : Nat → Json → List Char
  | _, .num n => intChars n
  | _, .bool false => ['f', 'a', 'l', 's', 'e']
  | _, .null => ['n', 'u', 'l', 'l']
  | _, .bool true => ['t', 'r', 'u', 'e']
  | _, .str s => '"' :: (escString s.data ++ ['"'])
  | _, .arr [] => ['[', ']']
  | lvl, .arr (e :: es) =>
    '[' :: '\n' :: (sp (2 * (lvl + 1)) ++ dChars (lvl + 1) e
      ++ dItemsTail (lvl + 1) es ++ '\n' :: (sp (2 * lvl) ++ [']']))
  | _, .obj [] => ['\x7b', '\x7d']
  | lvl, .obj (kv :: kvs) =>
    '\x7b' :: '\n' :: (sp (2 * (lvl + 1)) ++ dMember (lvl + 1) kv
      ++ dMembersTail (lvl + 1) kvs ++ '\n' :: (sp (2 * lvl) ++ ['\x7d']))

/-- The remaining array items, each preceded by `",\n"` and indentation. -/
def dItemsTail : Nat → List Json → List Char
  | _, [] => []
  | lvl, e :: es => ',' :: '\n' :: (sp (2 * lvl) ++ dChars lvl e ++ dItemsTail lvl es)

/-- One object member: quoted key, `": "`, then the value. -/
def dMember : Nat → String × Json → List Char
  | lvl, (k, v) => '"' :: (escString k.data ++ '"' :: ':' :: ' ' :: dChars lvl v)

/-- The remaining object members, each preceded by `",\n"` and indentation. -/
def dMembersTail : Nat → List (String × Json) → List Char
  | _, [] => []
  | lvl, kv :: kvs => ',' :: '\n' :: (sp (2 * lvl) ++ dMember lvl kv ++ dMembersTail lvl kvs)

end

/-- Python `json.dumps(v, indent=2, ensure_ascii=False)`, the serializer the
CLI uses with `--pretty`. -/
def dumpsPretty (v : Json) : String :=
  String.mk (dChars 0 v)

mutual

/-- Characters printed by Python `json.dumps(v, ensure_ascii=False)` with the
default separators `", "` and `": "`. -/
def dMinChars : Json → List Char
  | .num n => intChars n
  | .bool false => ['f', 'a', 'l', 's', 'e']
  | .null => ['n', 'u', 'l', 'l']
  | .bool true => ['t', 'r', 'u', 'e']
  | .str s => '"' :: (escString s.data ++ ['"'])
  | .arr [] => ['[', ']']
  | .arr (e :: es) => '[' :: (dMinChars e ++ dMinItemsTail es ++ [']'])
  | .obj [] => ['\x7b', '\x7d']
  | .obj (kv :: kvs) => '\x7b' :: (dMinMember kv ++ dMinMembersTail kvs ++ ['\x7d'])

/-- The remaining compact array items, each preceded by `", "`. -/
def dMinItemsTail : List Json → List Char
  | [] => []
  | e :: es => ',' :: ' ' :: (dMinChars e ++ dMinItemsTail es)

/-- One compact object member. -/
def dMinMember : String × Json → List Char
  | (k, v) => '"' :: (escString k.data ++ '"' :: ':' :: ' ' :: dMinChars v)

/-- The remaining compact object members, each preceded by `", "`. -/
def dMinMembersTail : List (String × Json) → List Char
  | [] => []
  | kv :: kvs => ',' :: ' ' :: (dMinMember kv ++ dMinMembersTail kvs)

end

/-- Python `json.dumps(v, ensure_ascii=False)`, the serializer the CLI uses
without `--pretty`. -/
def dumpsMin (v : Json) : String :=
  String.mk (dMinChars v)

/-- The JSON whitespace characters skipped by the Python `json` scanner. -/
def isJWs (c : Char) : Bool :=
  c.toNat == 32 || c.toNat == 9 || c.toNat == 10 || c.toNat == 13

/-- Skip JSON whitespace. -/
def skipWs (cs : List Char) : List Char :=
  cs.dropWhile isJWs

/-- Decimal digit test. -/
def isDigit (c : Char) : Bool :=
  '0' ≤ c && c ≤ '9'

/-- Numeric value of a decimal digit character. -/
def charDigit (c : Char) : Nat :=
  c.toNat - 48

/-- Value of a digit string, most significant digit first. -/
def digitsVal (ds : List Char) : Nat :=
  ds.foldl (fun a c => a * 10 + charDigit c) 0

/-- Hexadecimal value of a character, if it is a hex digit (either case),
computed from its code point. -/
def hexVal (c : Char) : Option Nat :=
  let n := c.toNat
  if 48 ≤ n && n ≤ 57 then some (n - 48)
  else if 97 ≤ n && n ≤ 102 then some (n - 87)
  else if 65 ≤ n && n ≤ 70 then some (n - 55)
  else none

/-- Decode four hexadecimal digit characters into a code unit. -/
def hex4 (h1 h2 h3 h4 : Char) : Option Nat :=
  match hexVal h1, hexVal h2, hexVal h3, hexVal h4 with
  | some a, some b, some c, some d => some (a * 4096 + b * 256 + c * 16 + d)
  | _, _, _, _ => none

mutual

/-- Parse the body of a JSON string after the opening quote, as the strict
Python decoder does: raw control characters are rejected, the standard
escapes and `\uXXXX` (with surrogate pairs) are decoded.  Returns the decoded
characters and the input after the closing quote. -/
def parseStringBody : List Char → Option (List Char × List Char)
  | [] => none
  | '"' :: rest => some ([], rest)
  | '\\' :: rest =>
    match rest with
    | '"' :: r => (parseStringBody r).map (fun p => ('"' :: p.1, p.2))
    | '\\' :: r => (parseStringBody r).map (fun p => ('\\' :: p.1, p.2))
    | '/' :: r => (parseStringBody r).map (fun p => ('/' :: p.1, p.2))
    | 'b' :: r => (parseStringBody r).map (fun p => ('\x08' :: p.1, p.2))
    | 'f' :: r => (parseStringBody r).map (fun p => ('\x0c' :: p.1, p.2))
    | 'n' :: r => (parseStringBody r).map (fun p => ('\n' :: p.1, p.2))
    | 'r' :: r => (parseStringBody r).map (fun p => ('\r' :: p.1, p.2))
    | 't' :: r => (parseStringBody r).map (fun p => ('\t' :: p.1, p.2))
    | 'u' :: h1 :: h2 :: h3 :: h4 :: r =>
      match hex4 h1 h2 h3 h4 with
      | none => none
      | some n =>
        if n < 0xd800 ∨ 0xe000 ≤ n then
          (parseStringBody r).map (fun p => (Char.ofNat n :: p.1, p.2))
        else if n < 0xdc00 then parseLowSurrogate n r
        else none
    | _ => none
  | c :: rest =>
    if c.toNat < 0x20 then none
    else (parseStringBody rest).map (fun p => (c :: p.1, p.2))

/-- After a high surrogate escape, expect the paired low surrogate escape
and combine the two code units into one character. -/
def parseLowSurrogate (hi : Nat) : List Char → Option (List Char × List Char)
  | '\\' :: 'u' :: g1 :: g2 :: g3 :: g4 :: r2 =>
    match hex4 g1 g2 g3 g4 with
    | none => none
    | some m =>
      if 0xdc00 ≤ m ∧ m < 0xe000 then
        (parseStringBody r2).map
          (fun p => (Char.ofNat (0x10000 + (hi - 0xd800) * 0x400 + (m - 0xdc00)) :: p.1, p.2))
      else none
  | _ => none

end

/-- Parse a natural number literal following the JSON grammar `0|[1-9]\d*`
(as the Python decoder's regular expression does: a literal starting with
`0` consumes only that digit). -/
def parseNat (cs : List Char) : Option (Nat × List Char) :=
  match cs with
  | '0' :: rest => some (0, rest)
  | _ =>
    let ds := cs.takeWhile isDigit
    if ds.isEmpty then none else some (digitsVal ds, cs.dropWhile isDigit)

/-- Match an exact sequence of characters. -/
def parseLit (l : List Char) (cs : List Char) : Option (List Char) :=
  if l.isPrefixOf cs then some (cs.drop l.length) else none

mutual

/-- Parse one JSON value, as the Python `json` scanner does: skip whitespace,
dispatch on the first character.  `fuel` bounds the recursion; every unit of
fuel spent corresponds to at least one consumed character, so an initial fuel
exceeding the input length never runs out. -/
def parseValue : Nat → List Char → Option (Json × List Char)
  | 0, _ => none
  | fuel + 1, cs =>
    match skipWs cs with
    | [] => none
    | c :: rest =>
      if c = '"' then
        (parseStringBody rest).map (fun p => (.str (String.mk p.1), p.2))
      else if c = 't' then
        (parseLit ['r', 'u', 'e'] rest).map (fun r => (.bool true, r))
      else if c = 'f' then
        (parseLit ['a', 'l', 's', 'e'] rest).map (fun r => (.bool false, r))
      else if c = 'n' then
        (parseLit ['u', 'l', 'l'] rest).map (fun r => (.null, r))
      else if c = '[' then
        match skipWs rest with
        | ']' :: r => some (.arr [], r)
        | _ =>
          match parseValue fuel rest with
          | none => none
          | some (v, r) =>
            match parseArrTail fuel r with
            | none => none
            | some (vs, r2) => some (.arr (v :: vs), r2)
      else if c = '\x7b' then
        match skipWs rest with
        | '\x7d' :: r => some (.obj [], r)
        | '"' :: krest =>
          match parseStringBody krest with
          | none => none
          | some (k, r1) =>
            match skipWs r1 with
            | ':' :: r2 =>
              match parseValue fuel r2 with
              | none => none
              | some (v, r3) =>
                match parseObjTail fuel r3 with
                | none => none
                | some (kvs, r4) => some (.obj ((String.mk k, v) :: kvs), r4)
            | _ => none
        | _ => none
      else if c = '-' then
        match parseNat rest with
        | none => none
        | some (m, r) => some (.num (-(m : Int)), r)
      else if isDigit c then
        match parseNat (c :: rest) with
        | none => none
        | some (m, r) => some (.num (m : Int), r)
      else none

/-- After the first array element: expect `,` and another element, or `]`. -/
def parseArrTail : Nat → List Char → Option (List Json × List Char)
  | 0, _ => none
  | fuel + 1, cs =>
    match skipWs cs with
    | ']' :: r => some ([], r)
    | ',' :: r =>
      match parseValue fuel r with
      | none => none
      | some (v, r2) =>
        match parseArrTail fuel r2 with
        | none => none
        | some (vs, r3) => some (v :: vs, r3)
    | _ => none

/-- After the first object member: expect `,` and another member, or the
closing brace. -/
def parseObjTail : Nat → List Char → Option (List (String × Json) × List Char)
  | 0, _ => none
  | fuel + 1, cs =>
    match skipWs cs with
    | '\x7d' :: r => some ([], r)
    | ',' :: r =>
      match skipWs r with
      | '"' :: krest =>
        match parseStringBody krest with
        | none => none
        | some (k, r1) =>
          match skipWs r1 with
          | ':' :: r2 =>
            match parseValue fuel r2 with
            | none => none
            | some (v, r3) =>
              match parseObjTail fuel r3 with
              | none => none
              | some (kvs, r4) => some ((String.mk k, v) :: kvs, r4)
          | _ => none
      | _ => none
    | _ => none

end

/-- Python `json.loads` (strict mode): parse one value and require that only
whitespace remains. -/
def loads (s : String) : Option Json :=
  match parseValue (s.data.length + 1) s.data with
  | some (v, rest) => if (skipWs rest).isEmpty then some v else none
  | none => none

/-- The failure conditions the scanner can raise (section 7 of the spec):
missing credential, unreadable PDF, empty extracted text, failed remote
call, unparsable model output. -/
inductive ScanError where
  | apiKeyMissing
  | extractionError (msg : String)
  | noExtractableText
  | apiCallError (msg : String)
  | jsonDecodeError

/-- The human-readable message each error carries, following the Python
exception messages (the `json.JSONDecodeError` detail interpolated by the
source is not modelled). -/
def ScanError.message : ScanError → String
  | .apiKeyMissing =>
    "OpenAI API key not found. Please set OPENAI_API_KEY environment variable or provide it as argument."
  | .extractionError m => m
  | .noExtractableText => "No text could be extracted from the PDF file"
  | .apiCallError m => "Error calling OpenAI API: " ++ m
  | .jsonDecodeError => "Error parsing JSON from OpenAI response"

/-- `PDFInvoiceScanner.__init__` (lines 27-43): resolve the credential from
the explicit argument or (falling back exactly when the argument is absent
or empty, per Python truthiness) the `OPENAI_API_KEY` environment variable
as read after `load_dotenv()`; fail with the configuration error when the
result is absent or empty, otherwise construct the scanner (represented by
the resolved key). -/
def scannerInit (api_key : Option String) (getenv : String → Option String) :
    Except ScanError String :=
  let resolved :=
    match api_key with
    | some k => if k = "" then getenv "OPENAI_API_KEY" else some k
    | none => getenv "OPENAI_API_KEY"
  match resolved with
  | none => .error .apiKeyMissing
  | some k => if k = "" then .error .apiKeyMissing else .ok k

/-- `PDFInvoiceScanner.extract_text_from_pdf` (lines 45-71): the PDF reader
either fails (corrupt or unreadable file, abstracted as an error message) or
yields the per-page texts; the page texts are accumulated in order and
joined with a double newline. -/
def extract_text_from_pdf (pdfRead : Except String (List String)) : Except String String :=
  match pdfRead with
  | .error e => .error ("Error extracting text from PDF: " ++ e)
  | .ok pages =>
    let text_content := pages.foldl (fun acc p => acc ++ [p]) []
    .ok (pyJoin "\n\n" text_content)

/-- `PDFInvoiceScanner.parse_invoice_to_json` (lines 73-127), given the
outcome of the remote chat-completion call: a failed call becomes the
service-call error; otherwise the response text is fence-stripped and
parsed, an unparsable text becoming the response-format error.  The second
component counts the remote calls made: exactly one, with no retry. -/
def parse_invoice_to_json (remote : Except String String) :
    Except ScanError Json × Nat :=
  match remote with
  | .error e => (.error (.apiCallError e), 1)
  | .ok content =>
    match loads (strip_code_fences content) with
    | none => (.error .jsonDecodeError, 1)
    | some v => (.ok v, 1)

/-- `PDFInvoiceScanner.scan_invoice` (lines 129-148): extract the text, fail
with the empty-content error when it strips to nothing, otherwise run the
structured extractor.  The second component again counts remote calls. -/
def scan_invoice (extracted : Except String String) (remote : Except String String) :
    Except ScanError Json × Nat :=
  match extracted with
  | .error e => (.error (.extractionError e), 0)
  | .ok pdf_text =>
    if pyStrip pdf_text = "" then (.error .noExtractableText, 0)
    else parse_invoice_to_json remote

/-- The parsed command-line arguments of the CLI. -/
structure Args where
  pdf_file : String
  output : Option String
  pretty : Bool
  api_key : Option String

/-- The ambient environment `main` runs in: the file-existence predicate,
the environment variables (as visible after `load_dotenv()`), the PDF
reader's outcome for the input file, and the remote service's outcome. -/
structure Env where
  isfile : String → Bool
  getenv : String → Option String
  pdfRead : Except String (List String)
  remote : Except String String

/-- The observable effects of one CLI invocation. -/
structure MainResult where
  exitCode : Nat
  stdout : List String
  stderrOut : List String
  fileWrites : List (String × String)
  extractCalls : Nat
  remoteCalls : Nat

/-- The `main` entry point (lines 151-224): check the input file exists, construct the
scanner, scan, serialize (2-space indent with `--pretty`, compact
otherwise), then write to the output file or print to stdout; any failure is
caught at the boundary, printed to stderr and turned into exit status 1. -/
def cliMain (args : Args) (env : Env) : MainResult :=
  if env.isfile args.pdf_file = false then
    { exitCode := 1, stdout := [],
      stderrOut := ["Error: PDF file not found: " ++ args.pdf_file],
      fileWrites := [], extractCalls := 0, remoteCalls := 0 }
  else
    match scannerInit args.api_key env.getenv with
    | .error e =>
      { exitCode := 1, stdout := [], stderrOut := ["\nError: " ++ e.message],
        fileWrites := [], extractCalls := 0, remoteCalls := 0 }
    | .ok _ =>
      match scan_invoice (extract_text_from_pdf env.pdfRead) env.remote with
      | (.error e, n) =>
        { exitCode := 1, stdout := [], stderrOut := ["\nError: " ++ e.message],
          fileWrites := [], extractCalls := 1, remoteCalls := n }
      | (.ok invoice_data, n) =>
        let json_output := if args.pretty then dumpsPretty invoice_data else dumpsMin invoice_data
        match args.output with
        | some path =>
          { exitCode := 0,
            stdout := ["\nSuccess! Invoice data saved to: " ++ path],
            stderrOut := [], fileWrites := [(path, json_output)],
            extractCalls := 1, remoteCalls := n }
        | none =>
          { exitCode := 0,
            stdout := ["\n" ++ String.mk (List.replicate 50 '='),
                       "INVOICE DATA (JSON)",
                       String.mk (List.replicate 50 '='),
                       json_output],
            stderrOut := [], fileWrites := [],
            extractCalls := 1, remoteCalls := n }

/-- A list whose head, if any, is not a decimal digit; parsing a number
immediately before such a list stops exactly at its start. -/
def headDigitFree : List Char → Prop
  | [] => True
  | c :: _ => isDigit c = false

/-! ## Spec-side definitions

These follow the words of the specification (not the source) and are
compared against the source-side definitions above. -/

/-- Spec wording, helper: segments each preceded by one blank line. -/
def prefixedSegs : List String → String
  | [] => ""
  | q :: qs => "\n\n" ++ q ++ prefixedSegs qs

/-- Spec wording for the extractor output: the per-page texts in page order
joined by exactly one blank line (a double-newline separator) between
consecutive segments. -/
def specBlankLineJoin : List String → String
  | [] => ""
  | p :: ps => p ++ prefixedSegs ps

/-- The first line of a text (Python `split('\n')[0]`). -/
def firstLine (s : String) : String :=
  (pySplitNl s).headD ""

/-- Drop the first line of a text, keeping the rest joined by newlines. -/
def dropFirstLine (s : String) : String :=
  pyJoin "\n" ((pySplitNl s).drop 1)

/-- Whether a line names a language tag.  The only tag relevant to this
pipeline (and the only one the source recognizes) is `json`. -/
def namesLanguageTag (line : String) : Bool :=
  line == "json"

/-- Claim C1 taken literally: after trimming, a text beginning with a code
fence has its first and last lines dropped unconditionally, and then its
first line dropped too when that line names a language tag. -/
def claimFenceStrip (s : String) : String :=
  let t := pyStrip s
  if pyStartsWith t "```" then
    let body := pyJoin "\n" (((pySplitNl t).drop 1).dropLast)
    if namesLanguageTag (firstLine body) then dropFirstLine body else body
  else t

/-! ## Concrete sanity checks of the embedded operations -/

example : strip_code_fences "```json\n\x7b\"total\": 10\x7d\n```" = "\x7b\"total\": 10\x7d" := by rfl
example : strip_code_fences "```\n```" = "```\n```" := by rfl
example : strip_code_fences "  hi  " = "hi" := by rfl
example : strip_code_fences "```\njson\n\x7ba\x7d\n```" = "\x7ba\x7d" := by rfl
example : dumpsPretty (.arr [.num 1, .obj [("a", .null)]])
    = "[\n  1,\n  \x7b\n    \"a\": null\n  \x7d\n]" := by rfl
example : dumpsMin (.arr [.num 1, .num (-2)]) = "[1, -2]" := by rfl
example : dumpsMin (.str "a\"b\x01") = "\"a\\\"b\\u0001\"" := by rfl
example : loads "\x7b\"total\": 10\x7d" = some (.obj [("total", .num 10)]) := by rfl
example : loads "not json at all" = none := by rfl
example : loads "[1, 2]" = some (.arr [.num 1, .num 2]) := by rfl
example : loads " [\n  -5,\n  \"a\\nb\",\n  true,\n  null,\n  [],\n  \x7b\x7d\n] "
    = some (.arr [.num (-5), .str "a\nb", .bool true, .null, .arr [], .obj []]) := by rfl
example : loads "01" = none := by rfl
example : loads "\"\\u0041\"" = some (.str "A") := by rfl
example : loads "\"\\ud83d\\ude00\"" = some (.str "😀") := by rfl
example : loads "1.5" = none := by rfl
example : loads "" = none := by rfl
example : loads "nullx" = none := by rfl
example :
    (cliMain (Args.mk "a.pdf" none false (some "k"))
      (Env.mk (fun _ => true) (fun _ => none) (.ok ["x"]) (.ok "[1]"))).exitCode = 0 := by rfl
example :
    (cliMain (Args.mk "a.pdf" none false (some "k"))
      (Env.mk (fun _ => false) (fun _ => none) (.ok ["x"]) (.ok "[1]"))).remoteCalls = 0 := by rfl

/-! ## Round-trip infrastructure: whitespace and dispatch lemmas -/

theorem skipWs_cons_ws (c : Char) (l : List Char) (h : isJWs c = true) :
    skipWs (c :: l) = skipWs l := by
  simp [skipWs, List.dropWhile_cons, h]

theorem skipWs_cons_not (c : Char) (l : List Char) (h : isJWs c = false) :
    skipWs (c :: l) = c :: l := by
  simp [skipWs, List.dropWhile_cons, h]

theorem pv_ws (fuel : Nat) (c : Char) (l : List Char) (h : isJWs c = true) :
    parseValue fuel (c :: l) = parseValue fuel l := by
  cases fuel with
  | zero => rfl
  | succ f => simp only [parseValue, skipWs_cons_ws c l h]

theorem pat_ws (fuel : Nat) (c : Char) (l : List Char) (h : isJWs c = true) :
    parseArrTail fuel (c :: l) = parseArrTail fuel l := by
  cases fuel with
  | zero => rfl
  | succ f => simp only [parseArrTail, skipWs_cons_ws c l h]

theorem pot_ws (fuel : Nat) (c : Char) (l : List Char) (h : isJWs c = true) :
    parseObjTail fuel (c :: l) = parseObjTail fuel l := by
  cases fuel with
  | zero => rfl
  | succ f => simp only [parseObjTail, skipWs_cons_ws c l h]

theorem pv_sp (fuel n : Nat) (l : List Char) :
    parseValue fuel (sp n ++ l) = parseValue fuel l := by
  induction n with
  | zero => rfl
  | succ m ih =>
    rw [sp, List.replicate_succ, List.cons_append, pv_ws _ _ _ (by decide)]
    exact ih

theorem pat_sp (fuel n : Nat) (l : List Char) :
    parseArrTail fuel (sp n ++ l) = parseArrTail fuel l := by
  induction n with
  | zero => rfl
  | succ m ih =>
    rw [sp, List.replicate_succ, List.cons_append, pat_ws _ _ _ (by decide)]
    exact ih

theorem pot_sp (fuel n : Nat) (l : List Char) :
    parseObjTail fuel (sp n ++ l) = parseObjTail fuel l := by
  induction n with
  | zero => rfl
  | succ m ih =>
    rw [sp, List.replicate_succ, List.cons_append, pot_ws _ _ _ (by decide)]
    exact ih

theorem pv_quote (f : Nat) (l : List Char) :
    parseValue (f + 1) ('"' :: l)
      = (parseStringBody l).map (fun p => (.str (String.mk p.1), p.2)) := rfl

theorem pv_t (f : Nat) (l : List Char) :
    parseValue (f + 1) ('t' :: l)
      = (parseLit ['r', 'u', 'e'] l).map (fun r => (.bool true, r)) := rfl

theorem pv_f (f : Nat) (l : List Char) :
    parseValue (f + 1) ('f' :: l)
      = (parseLit ['a', 'l', 's', 'e'] l).map (fun r => (.bool false, r)) := rfl

theorem pv_n (f : Nat) (l : List Char) :
    parseValue (f + 1) ('n' :: l)
      = (parseLit ['u', 'l', 'l'] l).map (fun r => (.null, r)) := rfl

theorem pv_lbrack (f : Nat) (l : List Char) :
    parseValue (f + 1) ('[' :: l) =
      (match skipWs l with
       | ']' :: r => some (.arr [], r)
       | _ =>
         match parseValue f l with
         | none => none
         | some (v, r) =>
           match parseArrTail f r with
           | none => none
           | some (vs, r2) => some (.arr (v :: vs), r2)) := rfl

theorem pv_lbrace (f : Nat) (l : List Char) :
    parseValue (f + 1) ('\x7b' :: l) =
      (match skipWs l with
       | '\x7d' :: r => some (.obj [], r)
       | '"' :: krest =>
         match parseStringBody krest with
         | none => none
         | some (k, r1) =>
           match skipWs r1 with
           | ':' :: r2 =>
             match parseValue f r2 with
             | none => none
             | some (v, r3) =>
               match parseObjTail f r3 with
               | none => none
               | some (kvs, r4) => some (.obj ((String.mk k, v) :: kvs), r4)
           | _ => none
       | _ => none) := rfl

theorem pv_minus (f : Nat) (l : List Char) :
    parseValue (f + 1) ('-' :: l) =
      (match parseNat l with
       | none => none
       | some (m, r) => some (.num (-(m : Int)), r)) := rfl

theorem pat_rbrack (f : Nat) (r : List Char) :
    parseArrTail (f + 1) (']' :: r) = some ([], r) := rfl

theorem pat_comma (f : Nat) (r : List Char) :
    parseArrTail (f + 1) (',' :: r) =
      (match parseValue f r with
       | none => none
       | some (v, r2) =>
         match parseArrTail f r2 with
         | none => none
         | some (vs, r3) => some (v :: vs, r3)) := rfl

theorem pot_rbrace (f : Nat) (r : List Char) :
    parseObjTail (f + 1) ('\x7d' :: r) = some ([], r) := rfl

theorem pot_comma (f : Nat) (r : List Char) :
    parseObjTail (f + 1) (',' :: r) =
      (match skipWs r with
       | '"' :: krest =>
         match parseStringBody krest with
         | none => none
         | some (k, r1) =>
           match skipWs r1 with
           | ':' :: r2 =>
             match parseValue f r2 with
             | none => none
             | some (v, r3) =>
               match parseObjTail f r3 with
               | none => none
               | some (kvs, r4) => some ((String.mk k, v) :: kvs, r4)
           | _ => none
       | _ => none) := rfl

/-! ## Digit characters and number literals -/

theorem isDigit_toNat (c : Char) (h : isDigit c = true) :
    48 ≤ c.toNat ∧ c.toNat ≤ 57 := by
  simp [isDigit] at h
  exact h

/-- A digit character is not whitespace and not any of the characters the
value dispatcher or the container parsers test for. -/
theorem digit_not_special (c : Char) (h : isDigit c = true) :
    isJWs c = false ∧ c ≠ ']' ∧ c ≠ ',' ∧ c ≠ '"' ∧ c ≠ 't' ∧ c ≠ 'f' ∧ c ≠ 'n'
    ∧ c ≠ '[' ∧ c ≠ '\x7b' ∧ c ≠ '-' := by
  obtain ⟨h1, h2⟩ := isDigit_toNat c h
  refine ⟨?_, ?_, ?_, ?_, ?_, ?_, ?_, ?_, ?_, ?_⟩
  · simp only [isJWs, Bool.or_eq_false_iff, beq_eq_false_iff_ne, ne_eq]
    refine ⟨⟨⟨?_, ?_⟩, ?_⟩, ?_⟩ <;> omega
  all_goals (intro he; subst he; revert h1 h2; decide)

theorem pv_digit (f : Nat) (c : Char) (l : List Char) (hd : isDigit c = true) :
    parseValue (f + 1) (c :: l) =
      (match parseNat (c :: l) with
       | none => none
       | some (m, r) => some (.num (m : Int), r)) := by
  obtain ⟨hw, _, _, h2, h3, h4, h5, h6, h7, h8⟩ := digit_not_special c hd
  simp only [parseValue, skipWs_cons_not c l hw]
  simp [h2, h3, h4, h5, h6, h7, h8, hd]

theorem natCharsAux_succ (fuel n : Nat) :
    natCharsAux (fuel + 1) n =
      if n < 10 then [digitChar n]
      else natCharsAux fuel (n / 10) ++ [digitChar (n % 10)] := rfl

theorem natCharsAux_all_digits :
    ∀ fuel n, n < fuel → ∀ c ∈ natCharsAux fuel n, isDigit c = true := by
  intro fuel
  induction fuel with
  | zero => intro n h; omega
  | succ f ih =>
    intro n hn c hc
    rw [natCharsAux_succ] at hc
    have hsmall : ∀ m, m < 10 → isDigit (digitChar m) = true := by decide
    by_cases h10 : n < 10
    · rw [if_pos h10] at hc
      simp at hc
      subst hc
      exact hsmall n h10
    · rw [if_neg h10] at hc
      rcases List.mem_append.mp hc with hm | hm
      · exact ih (n / 10) (by omega) c hm
      · simp at hm
        subst hm
        exact hsmall (n % 10) (by omega)

theorem natCharsAux_ne_nil (fuel n : Nat) (h : n < fuel) :
    natCharsAux fuel n ≠ [] := by
  cases fuel with
  | zero => omega
  | succ f =>
    rw [natCharsAux_succ]
    split <;> simp

theorem foldl_digits_natCharsAux :
    ∀ fuel n acc, n < fuel →
      List.foldl (fun a c => a * 10 + charDigit c) acc (natCharsAux fuel n)
        = acc * 10 ^ (natCharsAux fuel n).length + n := by
  intro fuel
  induction fuel with
  | zero => intro n acc h; omega
  | succ f ih =>
    intro n acc hn
    have hsmall : ∀ m, m < 10 → charDigit (digitChar m) = m := by decide
    rw [natCharsAux_succ]
    by_cases h10 : n < 10
    · rw [if_pos h10]
      simp [List.foldl, hsmall n h10]
    · rw [if_neg h10]
      rw [List.foldl_append, ih (n / 10) acc (by omega)]
      simp only [List.foldl, hsmall (n % 10) (by omega), List.length_append,
        List.length_cons, List.length_nil]
      have hstep : (acc * 10 ^ (natCharsAux f (n / 10)).length + n / 10) * 10 + n % 10
          = acc * (10 ^ (natCharsAux f (n / 10)).length * 10) + (n / 10 * 10 + n % 10) := by
        ring
      rw [hstep]
      simp only [Nat.zero_add]
      rw [pow_succ]
      have h1 : n / 10 * 10 + n % 10 = n := by omega
      rw [h1]

theorem digitsVal_natChars (n : Nat) : digitsVal (natChars n) = n := by
  unfold digitsVal natChars
  rw [foldl_digits_natCharsAux (n + 1) n 0 (by omega)]
  simp

theorem natCharsAux_head_ne_zero :
    ∀ fuel n, n < fuel → 0 < n → ∀ c l, natCharsAux fuel n = c :: l → c ≠ '0' := by
  intro fuel
  induction fuel with
  | zero => intro n h; omega
  | succ f ih =>
    intro n hn hpos c l heq
    rw [natCharsAux_succ] at heq
    by_cases h10 : n < 10
    · rw [if_pos h10] at heq
      have hc : digitChar n = c := (List.cons_eq_cons.mp heq).1
      have hne : ∀ m, m < 10 → 0 < m → digitChar m ≠ '0' := by decide
      exact hc ▸ hne n h10 hpos
    · rw [if_neg h10] at heq
      cases hrec : natCharsAux f (n / 10) with
      | nil => exact absurd hrec (natCharsAux_ne_nil f (n / 10) (by omega))
      | cons a as =>
        rw [hrec, List.cons_append] at heq
        have ha : a = c := (List.cons_eq_cons.mp heq).1
        exact ha ▸ ih (n / 10) (by omega) (by omega) a as hrec

/-! ## `takeWhile`, `dropWhile` and literal lemmas -/

theorem takeWhile_append_all {α : Type} (p : α → Bool) (ds rest : List α)
    (h : ∀ c ∈ ds, p c = true) :
    List.takeWhile p (ds ++ rest) = ds ++ List.takeWhile p rest := by
  induction ds with
  | nil => simp
  | cons d ds ih =>
    have hd : p d = true := h d (by simp)
    have ih' := ih (fun c hc => h c (by simp [hc]))
    simp [List.takeWhile_cons, hd, ih']

theorem dropWhile_append_all {α : Type} (p : α → Bool) (ds rest : List α)
    (h : ∀ c ∈ ds, p c = true) :
    List.dropWhile p (ds ++ rest) = List.dropWhile p rest := by
  induction ds with
  | nil => simp
  | cons d ds ih =>
    have hd : p d = true := h d (by simp)
    have ih' := ih (fun c hc => h c (by simp [hc]))
    simp [List.dropWhile_cons, hd, ih']

theorem takeWhile_headDigitFree (rest : List Char) (h : headDigitFree rest) :
    rest.takeWhile isDigit = [] := by
  cases rest with
  | nil => rfl
  | cons c l =>
    have hc : isDigit c = false := h
    simp [List.takeWhile_cons, hc]

theorem dropWhile_headDigitFree (rest : List Char) (h : headDigitFree rest) :
    rest.dropWhile isDigit = rest := by
  cases rest with
  | nil => rfl
  | cons c l =>
    have hc : isDigit c = false := h
    simp [List.dropWhile_cons, hc]

theorem parseLit_self (l rest : List Char) : parseLit l (l ++ rest) = some rest := by
  rw [parseLit, if_pos, List.drop_left]
  exact List.isPrefixOf_iff_prefix.mpr (List.prefix_append l rest)

theorem parseNat_natChars (n : Nat) (rest : List Char) (h : headDigitFree rest) :
    parseNat (natChars n ++ rest) = some (n, rest) := by
  by_cases h0 : n = 0
  · subst h0
    rfl
  · obtain ⟨c, l, hc⟩ : ∃ c l, natChars n = c :: l := by
      cases hx : natChars n with
      | nil => exact absurd hx (natCharsAux_ne_nil (n + 1) n (by omega))
      | cons c l => exact ⟨c, l, rfl⟩
    have hcne : c ≠ '0' := natCharsAux_head_ne_zero (n + 1) n (by omega) (by omega) c l hc
    have hdigits : ∀ x ∈ natChars n, isDigit x = true :=
      natCharsAux_all_digits (n + 1) n (by omega)
    rw [hc, List.cons_append]
    unfold parseNat
    split
    · rename_i heq
      exact absurd (List.cons_eq_cons.mp heq).1 hcne
    · rw [← List.cons_append, ← hc,
        takeWhile_append_all _ _ _ hdigits, takeWhile_headDigitFree rest h,
        dropWhile_append_all _ _ _ hdigits, dropWhile_headDigitFree rest h]
      have hne : natChars n ≠ [] := natCharsAux_ne_nil (n + 1) n (by omega)
      simp [List.isEmpty_iff, hne, digitsVal_natChars]

/-! ## String escaping round trip -/

theorem hexVal_hexDigitChar : ∀ x, x < 16 → hexVal (hexDigitChar x) = some x := by decide

theorem psb_close (r : List Char) : parseStringBody ('"' :: r) = some ([], r) := rfl

theorem psb_bsq (r : List Char) :
    parseStringBody ('\\' :: '"' :: r)
      = (parseStringBody r).map (fun p => ('"' :: p.1, p.2)) := rfl

theorem psb_bsbs (r : List Char) :
    parseStringBody ('\\' :: '\\' :: r)
      = (parseStringBody r).map (fun p => ('\\' :: p.1, p.2)) := rfl

theorem psb_bsn (r : List Char) :
    parseStringBody ('\\' :: 'n' :: r)
      = (parseStringBody r).map (fun p => ('\n' :: p.1, p.2)) := rfl

theorem psb_bsr (r : List Char) :
    parseStringBody ('\\' :: 'r' :: r)
      = (parseStringBody r).map (fun p => ('\r' :: p.1, p.2)) := rfl

theorem psb_bst (r : List Char) :
    parseStringBody ('\\' :: 't' :: r)
      = (parseStringBody r).map (fun p => ('\t' :: p.1, p.2)) := rfl

theorem psb_bsb (r : List Char) :
    parseStringBody ('\\' :: 'b' :: r)
      = (parseStringBody r).map (fun p => ('\x08' :: p.1, p.2)) := rfl

theorem psb_bsf (r : List Char) :
    parseStringBody ('\\' :: 'f' :: r)
      = (parseStringBody r).map (fun p => ('\x0c' :: p.1, p.2)) := rfl

theorem psb_u_step (h3 h4 : Char) (r : List Char) :
    parseStringBody ('\\' :: 'u' :: '0' :: '0' :: h3 :: h4 :: r) =
      (match hex4 '0' '0' h3 h4 with
       | none => none
       | some n =>
         if n < 0xd800 ∨ 0xe000 ≤ n then
           (parseStringBody r).map (fun p => (Char.ofNat n :: p.1, p.2))
         else if n < 0xdc00 then parseLowSurrogate n r
         else none) := rfl

theorem hex4_zero_zero (x y : Nat) (hx : x < 16) (hy : y < 16) :
    hex4 '0' '0' (hexDigitChar x) (hexDigitChar y) = some (x * 16 + y) := by
  simp only [hex4, hexVal_hexDigitChar x hx, hexVal_hexDigitChar y hy]
  simp [hexVal]

/-- A `\u00XX` escape decodes back to the code point below the surrogate
range. -/
theorem psb_u (x y : Nat) (hx : x < 16) (hy : y < 16) (r : List Char) :
    parseStringBody ('\\' :: 'u' :: '0' :: '0' :: hexDigitChar x :: hexDigitChar y :: r)
      = (parseStringBody r).map (fun p => (Char.ofNat (x * 16 + y) :: p.1, p.2)) := by
  rw [psb_u_step, hex4_zero_zero x y hx hy]
  have hlt : x * 16 + y < 55296 ∨ 57344 ≤ x * 16 + y := Or.inl (by omega)
  simp [hlt]

set_option maxHeartbeats 1000000 in
/-- An unescaped non-control character other than the quote and the
backslash passes through the string parser. -/
theorem psb_raw (c : Char) (tail : List Char) (h1 : ¬ c = '"') (h2 : ¬ c = '\\')
    (h3 : ¬ c.toNat < 0x20) :
    parseStringBody (c :: tail) = (parseStringBody tail).map (fun p => (c :: p.1, p.2)) := by
  rw [parseStringBody.eq_def]
  split
  · rename_i heq; cases heq
  · rename_i heq; exact absurd (List.cons_eq_cons.mp heq).1 h1
  · rename_i heq; exact absurd (List.cons_eq_cons.mp heq).1 h2
  · rename_i c2 rest2 heq
    obtain ⟨hc, ht⟩ := List.cons_eq_cons.mp heq
    subst hc
    subst ht
    rw [if_neg h3]

/-- Parsing an escaped string body after its closing quote recovers exactly
the original characters. -/
theorem parseStringBody_esc : ∀ (s rest : List Char),
    parseStringBody (escString s ++ '"' :: rest) = some (s, rest) := by
  intro s
  induction s with
  | nil => intro rest; rfl
  | cons c cs ih =>
    intro rest
    by_cases h1 : c = '"'
    · subst h1
      have he : escString ('"' :: cs) ++ '"' :: rest
          = '\\' :: '"' :: (escString cs ++ '"' :: rest) := rfl
      rw [he, psb_bsq, ih]
      rfl
    by_cases h2 : c = '\\'
    · subst h2
      have he : escString ('\\' :: cs) ++ '"' :: rest
          = '\\' :: '\\' :: (escString cs ++ '"' :: rest) := rfl
      rw [he, psb_bsbs, ih]
      rfl
    by_cases h3 : c = '\n'
    · subst h3
      have he : escString ('\n' :: cs) ++ '"' :: rest
          = '\\' :: 'n' :: (escString cs ++ '"' :: rest) := rfl
      rw [he, psb_bsn, ih]
      rfl
    by_cases h4 : c = '\r'
    · subst h4
      have he : escString ('\r' :: cs) ++ '"' :: rest
          = '\\' :: 'r' :: (escString cs ++ '"' :: rest) := rfl
      rw [he, psb_bsr, ih]
      rfl
    by_cases h5 : c = '\t'
    · subst h5
      have he : escString ('\t' :: cs) ++ '"' :: rest
          = '\\' :: 't' :: (escString cs ++ '"' :: rest) := rfl
      rw [he, psb_bst, ih]
      rfl
    by_cases h6 : c = '\x08'
    · subst h6
      have he : escString ('\x08' :: cs) ++ '"' :: rest
          = '\\' :: 'b' :: (escString cs ++ '"' :: rest) := rfl
      rw [he, psb_bsb, ih]
      rfl
    by_cases h7 : c = '\x0c'
    · subst h7
      have he : escString ('\x0c' :: cs) ++ '"' :: rest
          = '\\' :: 'f' :: (escString cs ++ '"' :: rest) := rfl
      rw [he, psb_bsf, ih]
      rfl
    by_cases h8 : c.toNat < 0x20
    · have he : escString (c :: cs) ++ '"' :: rest
          = '\\' :: 'u' :: '0' :: '0' :: hexDigitChar (c.toNat / 16)
              :: hexDigitChar (c.toNat % 16) :: (escString cs ++ '"' :: rest) := by
        show (escChar c ++ escString cs) ++ '"' :: rest = _
        rw [escChar, if_neg h1, if_neg h2, if_neg h3, if_neg h4, if_neg h5,
          if_neg h6, if_neg h7, if_pos h8]
        simp
      rw [he, psb_u _ _ (by omega) (by omega), ih]
      have harith : c.toNat / 16 * 16 + c.toNat % 16 = c.toNat := by omega
      rw [harith, Char.ofNat_toNat]
      rfl
    · have he : escString (c :: cs) ++ '"' :: rest = c :: (escString cs ++ '"' :: rest) := by
        show (escChar c ++ escString cs) ++ '"' :: rest = _
        rw [escChar, if_neg h1, if_neg h2, if_neg h3, if_neg h4, if_neg h5,
          if_neg h6, if_neg h7, if_neg h8]
        simp
      rw [he, psb_raw c _ h1 h2 h8, ih]
      rfl

/-! ## Printed values and parser dispatch -/

theorem skipWs_sp (n : Nat) (l : List Char) : skipWs (sp n ++ l) = skipWs l := by
  induction n with
  | zero => rfl
  | succ m ih =>
    rw [sp, List.replicate_succ, List.cons_append, skipWs_cons_ws _ _ (by decide)]
    exact ih

theorem mk_data (s : String) : String.mk s.data = s := rfl

/-- The first printed character of any value: never whitespace, never a
closing bracket, never a comma. -/
theorem dChars_cons (lvl : Nat) (v : Json) :
    ∃ c l, dChars lvl v = c :: l ∧ isJWs c = false ∧ c ≠ ']' ∧ c ≠ ',' := by
  cases v with
  | num n =>
    have hd : dChars lvl (.num n) = intChars n := rfl
    by_cases hn : n < 0
    · exact ⟨'-', _, by rw [hd, intChars, if_pos hn], by decide⟩
    · rw [hd, intChars, if_neg hn]
      cases hx : natChars n.toNat with
      | nil => exact absurd hx (natCharsAux_ne_nil (n.toNat + 1) n.toNat (by omega))
      | cons c l =>
        have hdig : isDigit c = true :=
          natCharsAux_all_digits (n.toNat + 1) n.toNat (by omega) c (by rw [← natChars, hx]; simp)
        obtain ⟨hw, hrb, hcm, _⟩ := digit_not_special c hdig
        exact ⟨c, l, rfl, hw, hrb, hcm⟩
  | bool b => cases b <;> exact ⟨_, _, rfl, by decide⟩
  | arr es => cases es <;> exact ⟨'[', _, rfl, by decide⟩
  | obj kvs => cases kvs <;> exact ⟨'\x7b', _, rfl, by decide⟩
  | _ => exact ⟨_, _, rfl, by decide⟩

theorem headDigitFree_items (L : Nat) (es : List Json) (X : List Char) :
    headDigitFree (dItemsTail L es ++ '\n' :: X) := by
  cases es with
  | nil =>
    show headDigitFree ([] ++ '\n' :: X)
    exact (rfl : isDigit '\n' = false)
  | cons e es =>
    show headDigitFree ((',' :: _) ++ '\n' :: X)
    exact (rfl : isDigit ',' = false)

theorem headDigitFree_members (L : Nat) (kvs : List (String × Json)) (X : List Char) :
    headDigitFree (dMembersTail L kvs ++ '\n' :: X) := by
  cases kvs with
  | nil =>
    show headDigitFree ([] ++ '\n' :: X)
    exact (rfl : isDigit '\n' = false)
  | cons kv kvs =>
    show headDigitFree ((',' :: _) ++ '\n' :: X)
    exact (rfl : isDigit ',' = false)

/-- Dispatch of the array branch when the element list is not finished. -/
theorem pv_lbrack_value (f : Nat) (l : List Char) (c : Char) (cl : List Char)
    (hskip : skipWs l = c :: cl) (hc : c ≠ ']') :
    parseValue (f + 1) ('[' :: l) =
      (match parseValue f l with
       | none => none
       | some (v, r) =>
         match parseArrTail f r with
         | none => none
         | some (vs, r2) => some (.arr (v :: vs), r2)) := by
  rw [pv_lbrack, hskip]
  split
  · rename_i heq
    exact absurd (List.cons_eq_cons.mp heq).1 hc
  · rfl

/-- Dispatch of the array branch at the immediate closing bracket. -/
theorem pv_lbrack_empty (f : Nat) (l : List Char) (r : List Char)
    (hskip : skipWs l = ']' :: r) :
    parseValue (f + 1) ('[' :: l) = some (.arr [], r) := by
  rw [pv_lbrack, hskip]
  rfl

/-- Dispatch of the object branch at the immediate closing brace. -/
theorem pv_lbrace_empty (f : Nat) (l : List Char) (r : List Char)
    (hskip : skipWs l = '\x7d' :: r) :
    parseValue (f + 1) ('\x7b' :: l) = some (.obj [], r) := by
  rw [pv_lbrace, hskip]
  rfl

/-- Dispatch of the object branch at the opening quote of the first key. -/
theorem pv_lbrace_key (f : Nat) (l : List Char) (krest : List Char)
    (hskip : skipWs l = '"' :: krest) :
    parseValue (f + 1) ('\x7b' :: l) =
      (match parseStringBody krest with
       | none => none
       | some (k, r1) =>
         match skipWs r1 with
         | ':' :: r2 =>
           match parseValue f r2 with
           | none => none
           | some (v, r3) =>
             match parseObjTail f r3 with
             | none => none
             | some (kvs, r4) => some (.obj ((String.mk k, v) :: kvs), r4)
         | _ => none) := by
  rw [pv_lbrace, hskip]
  rfl

/-! ## The parser inverts the pretty printer -/

mutual

/-- Parsing the pretty-printed form of a value, followed by any non-digit
remainder, recovers exactly that value, whenever the fuel covers the input
length. -/
theorem rtV (v : Json) (lvl : Nat) (rest : List Char) (fuel : Nat)
    (hfuel : (dChars lvl v ++ rest).length ≤ fuel) (hrest : headDigitFree rest) :
    parseValue fuel (dChars lvl v ++ rest) = some (v, rest) := by
  cases v with
  | null =>
    cases fuel with
    | zero => simp [dChars] at hfuel
    | succ f =>
      show parseValue (f + 1) ('n' :: 'u' :: 'l' :: 'l' :: rest) = some (Json.null, rest)
      rw [pv_n, show ('u' :: 'l' :: 'l' :: rest) = ['u', 'l', 'l'] ++ rest from rfl,
        parseLit_self]
      rfl
  | bool b =>
    cases b with
    | true =>
      cases fuel with
      | zero => simp [dChars] at hfuel
      | succ f =>
        show parseValue (f + 1) ('t' :: 'r' :: 'u' :: 'e' :: rest) = some (Json.bool true, rest)
        rw [pv_t, show ('r' :: 'u' :: 'e' :: rest) = ['r', 'u', 'e'] ++ rest from rfl,
          parseLit_self]
        rfl
    | false =>
      cases fuel with
      | zero => simp [dChars] at hfuel
      | succ f =>
        show parseValue (f + 1) ('f' :: 'a' :: 'l' :: 's' :: 'e' :: rest)
          = some (Json.bool false, rest)
        rw [pv_f, show ('a' :: 'l' :: 's' :: 'e' :: rest) = ['a', 'l', 's', 'e'] ++ rest from rfl,
          parseLit_self]
        rfl
  | num n =>
    have hd0 : dChars lvl (.num n) = intChars n := rfl
    rw [hd0] at hfuel ⊢
    by_cases hn : n < 0
    · rw [intChars, if_pos hn] at hfuel ⊢
      cases fuel with
      | zero => simp at hfuel
      | succ f =>
        rw [List.cons_append, pv_minus, parseNat_natChars n.natAbs rest hrest]
        have hcast : -((n.natAbs : Int)) = n := by omega
        show some (Json.num (-((n.natAbs : Nat) : Int)), rest) = some (Json.num n, rest)
        rw [hcast]
    · rw [intChars, if_neg hn] at hfuel ⊢
      cases hx : natChars n.toNat with
      | nil => exact absurd hx (natCharsAux_ne_nil (n.toNat + 1) n.toNat (by omega))
      | cons c0 l0 =>
        cases fuel with
        | zero =>
          simp at hfuel
          exact absurd hfuel.1 (natCharsAux_ne_nil (n.toNat + 1) n.toNat (by omega))
        | succ f =>
          have hdig : isDigit c0 = true :=
            natCharsAux_all_digits (n.toNat + 1) n.toNat (by omega) c0
              (by rw [← natChars, hx]; simp)
          rw [List.cons_append, pv_digit f c0 _ hdig, ← List.cons_append, ← hx,
            parseNat_natChars n.toNat rest hrest]
          have hcast : ((n.toNat : Nat) : Int) = n := by omega
          show some (Json.num ((n.toNat : Nat) : Int), rest) = some (Json.num n, rest)
          rw [hcast]
  | str s =>
    have hshape : dChars lvl (.str s) ++ rest = '"' :: (escString s.data ++ '"' :: rest) := by
      show ('"' :: (escString s.data ++ ['"'])) ++ rest = _
      simp [List.append_assoc]
    rw [hshape] at hfuel ⊢
    cases fuel with
    | zero => simp at hfuel
    | succ f =>
      rw [pv_quote, parseStringBody_esc]
      rfl
  | arr es =>
    cases es with
    | nil =>
      cases fuel with
      | zero => simp [dChars] at hfuel
      | succ f =>
        show parseValue (f + 1) ('[' :: ']' :: rest) = some (Json.arr [], rest)
        exact pv_lbrack_empty f _ rest (skipWs_cons_not ']' rest (by decide))
    | cons e es' =>
      have hshape : dChars lvl (.arr (e :: es')) ++ rest
          = '[' :: '\n' :: (sp (2 * (lvl + 1)) ++ (dChars (lvl + 1) e
              ++ (dItemsTail (lvl + 1) es' ++ '\n' :: (sp (2 * lvl) ++ ']' :: rest)))) := by
        show ('[' :: '\n' :: (sp (2 * (lvl + 1)) ++ dChars (lvl + 1) e
            ++ dItemsTail (lvl + 1) es' ++ '\n' :: (sp (2 * lvl) ++ [']']))) ++ rest = _
        simp [List.append_assoc]
      rw [hshape] at hfuel ⊢
      cases fuel with
      | zero => simp at hfuel
      | succ f =>
        have hlen : (dChars (lvl + 1) e ++ (dItemsTail (lvl + 1) es'
              ++ '\n' :: (sp (2 * lvl) ++ ']' :: rest))).length ≤ f
            ∧ (dItemsTail (lvl + 1) es' ++ '\n' :: (sp (2 * lvl) ++ ']' :: rest)).length ≤ f := by
          simp only [List.length_append, List.length_cons, sp, List.length_replicate] at hfuel ⊢
          omega
        obtain ⟨c0, cl0, hc0, hw0, hrb0, _⟩ := dChars_cons (lvl + 1) e
        have hskip : skipWs ('\n' :: (sp (2 * (lvl + 1)) ++ (dChars (lvl + 1) e
            ++ (dItemsTail (lvl + 1) es' ++ '\n' :: (sp (2 * lvl) ++ ']' :: rest)))))
            = c0 :: (cl0 ++ (dItemsTail (lvl + 1) es'
                ++ '\n' :: (sp (2 * lvl) ++ ']' :: rest))) := by
          rw [skipWs_cons_ws _ _ (by decide), skipWs_sp, hc0, List.cons_append,
            skipWs_cons_not _ _ hw0]
        rw [pv_lbrack_value f _ c0 _ hskip hrb0]
        have hv : parseValue f ('\n' :: (sp (2 * (lvl + 1)) ++ (dChars (lvl + 1) e
            ++ (dItemsTail (lvl + 1) es' ++ '\n' :: (sp (2 * lvl) ++ ']' :: rest)))))
            = some (e, dItemsTail (lvl + 1) es' ++ '\n' :: (sp (2 * lvl) ++ ']' :: rest)) := by
          rw [pv_ws _ _ _ (by decide), pv_sp]
          exact rtV e (lvl + 1) _ f hlen.1 (headDigitFree_items _ _ _)
        have ha : parseArrTail f (dItemsTail (lvl + 1) es'
            ++ '\n' :: (sp (2 * lvl) ++ ']' :: rest)) = some (es', rest) :=
          rtArr es' lvl rest f hlen.2
        simp only [hv, ha]
  | obj kvs =>
    cases kvs with
    | nil =>
      cases fuel with
      | zero => simp [dChars] at hfuel
      | succ f =>
        show parseValue (f + 1) ('\x7b' :: '\x7d' :: rest) = some (Json.obj [], rest)
        exact pv_lbrace_empty f _ rest (skipWs_cons_not '\x7d' rest (by decide))
    | cons kv kvs' =>
      obtain ⟨k0, w⟩ := kv
      have hshape : dChars lvl (.obj ((k0, w) :: kvs')) ++ rest
          = '\x7b' :: '\n' :: (sp (2 * (lvl + 1)) ++ ('"' :: (escString k0.data
              ++ '"' :: ':' :: ' ' :: (dChars (lvl + 1) w
              ++ (dMembersTail (lvl + 1) kvs'
                  ++ '\n' :: (sp (2 * lvl) ++ '\x7d' :: rest)))))) := by
        show ('\x7b' :: '\n' :: (sp (2 * (lvl + 1))
            ++ ('"' :: (escString k0.data ++ '"' :: ':' :: ' ' :: dChars (lvl + 1) w))
            ++ dMembersTail (lvl + 1) kvs'
            ++ '\n' :: (sp (2 * lvl) ++ ['\x7d']))) ++ rest = _
        simp [List.append_assoc]
      rw [hshape] at hfuel ⊢
      cases fuel with
      | zero => simp at hfuel
      | succ f =>
        have hlen : (dChars (lvl + 1) w ++ (dMembersTail (lvl + 1) kvs'
              ++ '\n' :: (sp (2 * lvl) ++ '\x7d' :: rest))).length ≤ f
            ∧ (dMembersTail (lvl + 1) kvs'
              ++ '\n' :: (sp (2 * lvl) ++ '\x7d' :: rest)).length ≤ f := by
          simp only [List.length_append, List.length_cons, sp, List.length_replicate] at hfuel ⊢
          omega
        have hskip : skipWs ('\n' :: (sp (2 * (lvl + 1)) ++ ('"' :: (escString k0.data
            ++ '"' :: ':' :: ' ' :: (dChars (lvl + 1) w
            ++ (dMembersTail (lvl + 1) kvs' ++ '\n' :: (sp (2 * lvl) ++ '\x7d' :: rest)))))))
            = '"' :: (escString k0.data ++ '"' :: ':' :: ' ' :: (dChars (lvl + 1) w
              ++ (dMembersTail (lvl + 1) kvs'
                  ++ '\n' :: (sp (2 * lvl) ++ '\x7d' :: rest)))) := by
          rw [skipWs_cons_ws _ _ (by decide), skipWs_sp, skipWs_cons_not _ _ (by decide)]
        rw [pv_lbrace_key f _ _ hskip]
        have hk : parseStringBody (escString k0.data ++ '"' :: (':' :: ' ' :: (dChars (lvl + 1) w
            ++ (dMembersTail (lvl + 1) kvs' ++ '\n' :: (sp (2 * lvl) ++ '\x7d' :: rest)))))
            = some (k0.data, ':' :: ' ' :: (dChars (lvl + 1) w
              ++ (dMembersTail (lvl + 1) kvs'
                  ++ '\n' :: (sp (2 * lvl) ++ '\x7d' :: rest)))) :=
          parseStringBody_esc _ _
        have hsk2 : skipWs (':' :: ' ' :: (dChars (lvl + 1) w
            ++ (dMembersTail (lvl + 1) kvs' ++ '\n' :: (sp (2 * lvl) ++ '\x7d' :: rest))))
            = ':' :: ' ' :: (dChars (lvl + 1) w
              ++ (dMembersTail (lvl + 1) kvs'
                  ++ '\n' :: (sp (2 * lvl) ++ '\x7d' :: rest))) :=
          skipWs_cons_not _ _ (by decide)
        have hv : parseValue f (' ' :: (dChars (lvl + 1) w
            ++ (dMembersTail (lvl + 1) kvs' ++ '\n' :: (sp (2 * lvl) ++ '\x7d' :: rest))))
            = some (w, dMembersTail (lvl + 1) kvs'
                ++ '\n' :: (sp (2 * lvl) ++ '\x7d' :: rest)) := by
          rw [pv_ws _ _ _ (by decide)]
          exact rtV w (lvl + 1) _ f hlen.1 (headDigitFree_members _ _ _)
        have ho : parseObjTail f (dMembersTail (lvl + 1) kvs'
            ++ '\n' :: (sp (2 * lvl) ++ '\x7d' :: rest)) = some (kvs', rest) :=
          rtObj kvs' lvl rest f hlen.2
        simp only [hk, hsk2, hv, ho, mk_data]

/-- Parsing the pretty-printed remaining array items, followed by the
closing line and bracket, recovers exactly those items. -/
theorem rtArr (es : List Json) (lvl : Nat) (rest : List Char) (fuel : Nat)
    (hfuel : (dItemsTail (lvl + 1) es ++ '\n' :: (sp (2 * lvl) ++ ']' :: rest)).length ≤ fuel) :
    parseArrTail fuel (dItemsTail (lvl + 1) es ++ '\n' :: (sp (2 * lvl) ++ ']' :: rest))
      = some (es, rest) := by
  cases es with
  | nil =>
    cases fuel with
    | zero => simp [dItemsTail] at hfuel
    | succ f =>
      show parseArrTail (f + 1) ('\n' :: (sp (2 * lvl) ++ ']' :: rest)) = some ([], rest)
      rw [pat_ws _ _ _ (by decide), pat_sp, pat_rbrack]
  | cons e es' =>
    have hshape : dItemsTail (lvl + 1) (e :: es') ++ '\n' :: (sp (2 * lvl) ++ ']' :: rest)
        = ',' :: '\n' :: (sp (2 * (lvl + 1)) ++ (dChars (lvl + 1) e
            ++ (dItemsTail (lvl + 1) es' ++ '\n' :: (sp (2 * lvl) ++ ']' :: rest)))) := by
      show (',' :: '\n' :: (sp (2 * (lvl + 1)) ++ dChars (lvl + 1) e
          ++ dItemsTail (lvl + 1) es')) ++ '\n' :: (sp (2 * lvl) ++ ']' :: rest) = _
      simp [List.append_assoc]
    rw [hshape] at hfuel ⊢
    cases fuel with
    | zero => simp at hfuel
    | succ f =>
      have hlen : (dChars (lvl + 1) e ++ (dItemsTail (lvl + 1) es'
            ++ '\n' :: (sp (2 * lvl) ++ ']' :: rest))).length ≤ f
          ∧ (dItemsTail (lvl + 1) es' ++ '\n' :: (sp (2 * lvl) ++ ']' :: rest)).length ≤ f := by
        simp only [List.length_append, List.length_cons, sp, List.length_replicate] at hfuel ⊢
        omega
      rw [pat_comma]
      have hv : parseValue f ('\n' :: (sp (2 * (lvl + 1)) ++ (dChars (lvl + 1) e
          ++ (dItemsTail (lvl + 1) es' ++ '\n' :: (sp (2 * lvl) ++ ']' :: rest)))))
          = some (e, dItemsTail (lvl + 1) es' ++ '\n' :: (sp (2 * lvl) ++ ']' :: rest)) := by
        rw [pv_ws _ _ _ (by decide), pv_sp]
        exact rtV e (lvl + 1) _ f hlen.1 (headDigitFree_items _ _ _)
      have ha : parseArrTail f (dItemsTail (lvl + 1) es'
          ++ '\n' :: (sp (2 * lvl) ++ ']' :: rest)) = some (es', rest) :=
        rtArr es' lvl rest f hlen.2
      simp only [hv, ha]

/-- Parsing the pretty-printed remaining object members, followed by the
closing line and brace, recovers exactly those members. -/
theorem rtObj (kvs : List (String × Json)) (lvl : Nat) (rest : List Char) (fuel : Nat)
    (hfuel : (dMembersTail (lvl + 1) kvs
        ++ '\n' :: (sp (2 * lvl) ++ '\x7d' :: rest)).length ≤ fuel) :
    parseObjTail fuel (dMembersTail (lvl + 1) kvs ++ '\n' :: (sp (2 * lvl) ++ '\x7d' :: rest))
      = some (kvs, rest) := by
  cases kvs with
  | nil =>
    cases fuel with
    | zero => simp [dMembersTail] at hfuel
    | succ f =>
      show parseObjTail (f + 1) ('\n' :: (sp (2 * lvl) ++ '\x7d' :: rest)) = some ([], rest)
      rw [pot_ws _ _ _ (by decide), pot_sp, pot_rbrace]
  | cons kv kvs' =>
    obtain ⟨k0, w⟩ := kv
    have hshape : dMembersTail (lvl + 1) ((k0, w) :: kvs')
          ++ '\n' :: (sp (2 * lvl) ++ '\x7d' :: rest)
        = ',' :: '\n' :: (sp (2 * (lvl + 1)) ++ ('"' :: (escString k0.data
            ++ '"' :: ':' :: ' ' :: (dChars (lvl + 1) w
            ++ (dMembersTail (lvl + 1) kvs'
                ++ '\n' :: (sp (2 * lvl) ++ '\x7d' :: rest)))))) := by
      show (',' :: '\n' :: (sp (2 * (lvl + 1))
          ++ ('"' :: (escString k0.data ++ '"' :: ':' :: ' ' :: dChars (lvl + 1) w))
          ++ dMembersTail (lvl + 1) kvs'))
          ++ '\n' :: (sp (2 * lvl) ++ '\x7d' :: rest) = _
      simp [List.append_assoc]
    rw [hshape] at hfuel ⊢
    cases fuel with
    | zero => simp at hfuel
    | succ f =>
      have hlen : (dChars (lvl + 1) w ++ (dMembersTail (lvl + 1) kvs'
            ++ '\n' :: (sp (2 * lvl) ++ '\x7d' :: rest))).length ≤ f
          ∧ (dMembersTail (lvl + 1) kvs'
            ++ '\n' :: (sp (2 * lvl) ++ '\x7d' :: rest)).length ≤ f := by
        simp only [List.length_append, List.length_cons, sp, List.length_replicate] at hfuel ⊢
        omega
      rw [pot_comma]
      have hskip : skipWs ('\n' :: (sp (2 * (lvl + 1)) ++ ('"' :: (escString k0.data
          ++ '"' :: ':' :: ' ' :: (dChars (lvl + 1) w
          ++ (dMembersTail (lvl + 1) kvs' ++ '\n' :: (sp (2 * lvl) ++ '\x7d' :: rest)))))))
          = '"' :: (escString k0.data ++ '"' :: ':' :: ' ' :: (dChars (lvl + 1) w
            ++ (dMembersTail (lvl + 1) kvs'
                ++ '\n' :: (sp (2 * lvl) ++ '\x7d' :: rest)))) := by
        rw [skipWs_cons_ws _ _ (by decide), skipWs_sp, skipWs_cons_not _ _ (by decide)]
      have hk : parseStringBody (escString k0.data ++ '"' :: (':' :: ' ' :: (dChars (lvl + 1) w
          ++ (dMembersTail (lvl + 1) kvs' ++ '\n' :: (sp (2 * lvl) ++ '\x7d' :: rest)))))
          = some (k0.data, ':' :: ' ' :: (dChars (lvl + 1) w
            ++ (dMembersTail (lvl + 1) kvs'
                ++ '\n' :: (sp (2 * lvl) ++ '\x7d' :: rest)))) :=
        parseStringBody_esc _ _
      have hsk2 : skipWs (':' :: ' ' :: (dChars (lvl + 1) w
          ++ (dMembersTail (lvl + 1) kvs' ++ '\n' :: (sp (2 * lvl) ++ '\x7d' :: rest))))
          = ':' :: ' ' :: (dChars (lvl + 1) w
            ++ (dMembersTail (lvl + 1) kvs'
                ++ '\n' :: (sp (2 * lvl) ++ '\x7d' :: rest))) :=
        skipWs_cons_not _ _ (by decide)
      have hv : parseValue f (' ' :: (dChars (lvl + 1) w
          ++ (dMembersTail (lvl + 1) kvs' ++ '\n' :: (sp (2 * lvl) ++ '\x7d' :: rest))))
          = some (w, dMembersTail (lvl + 1) kvs'
              ++ '\n' :: (sp (2 * lvl) ++ '\x7d' :: rest)) := by
        rw [pv_ws _ _ _ (by decide)]
        exact rtV w (lvl + 1) _ f hlen.1 (headDigitFree_members _ _ _)
      have ho : parseObjTail f (dMembersTail (lvl + 1) kvs'
          ++ '\n' :: (sp (2 * lvl) ++ '\x7d' :: rest)) = some (kvs', rest) :=
        rtObj kvs' lvl rest f hlen.2
      simp only [hskip, hk, hsk2, hv, ho, mk_data]

end

/-! ## Claim C5: the pretty serialization round trip -/

/-- C5: serializing any in-memory extraction result with the `--pretty`
serializer (2-space indent, non-ASCII preserved) and parsing the written
text back as JSON yields a value deep-equal to the original.  The output
file holds exactly the serialized text, so parsing the file's contents is
parsing this string. -/
theorem pretty_roundtrip (v : Json) : loads (dumpsPretty v) = some v := by
  have h := rtV v 0 [] ((dChars 0 v).length + 1)
    (by rw [List.append_nil]; omega) trivial
  rw [List.append_nil] at h
  show (match parseValue ((dChars 0 v).length + 1) (dChars 0 v) with
        | some (w, rest) => if (skipWs rest).isEmpty then some w else none
        | none => none) = some v
  rw [h]
  rfl

/-! ## Basic lemmas -/

/-- Appending elements one at a time is appending the whole list. -/
theorem foldl_snoc (l init : List String) :
    List.foldl (fun acc p => acc ++ [p]) init l = init ++ l := by
  induction l generalizing init with
  | nil => simp
  | cons x xs ih => simp [List.foldl, ih]

/-- The source's `"\n\n".join` agrees with the spec's blank-line join. -/
theorem pyJoin_blank_eq : ∀ l, pyJoin "\n\n" l = specBlankLineJoin l
  | [] => rfl
  | [x] => by simp [pyJoin, specBlankLineJoin, prefixedSegs]
  | x :: y :: xs => by
    have ih := pyJoin_blank_eq (y :: xs)
    simp only [pyJoin, specBlankLineJoin, prefixedSegs] at ih ⊢
    rw [ih]
    simp [String.append_assoc]

/-- A character list that starts with three backticks does not start with
`json`. -/
theorem isPrefixOf_json_eq_false (l : List Char)
    (h : List.isPrefixOf ['`', '`', '`'] l = true) :
    List.isPrefixOf ['j', 's', 'o', 'n'] l = false := by
  cases l with
  | nil => exact absurd h (by decide)
  | cons c cs =>
    have h' : (('`' == c) && List.isPrefixOf ['`', '`'] cs) = true := h
    have hc : c = '`' := (eq_of_beq ((Bool.and_eq_true _ _).mp h').1).symm
    subst hc
    rfl

/-- A text that starts with a backtick fence does not start with `json`. -/
theorem not_json_of_fence (t : String) (h : pyStartsWith t "```" = true) :
    pyStartsWith t "json" = false :=
  isPrefixOf_json_eq_false t.data h

/-! ## Claim C4: page joining -/

/-- C4: for a PDF whose pages each yield non-empty text, the extractor's
output is exactly the per-page texts in page order joined by one blank line
(a double newline) between consecutive segments. -/
theorem extract_joins_pages (pages : List String) (_h : ∀ p ∈ pages, p ≠ "") :
    extract_text_from_pdf (.ok pages) = .ok (specBlankLineJoin pages) := by
  simp [extract_text_from_pdf, foldl_snoc, pyJoin_blank_eq]

/-- Witness for `extract_joins_pages` at a concrete two-page document. -/
theorem extract_joins_pages_witness :
    (∀ p ∈ ["page one", "page two"], p ≠ "")
    ∧ extract_text_from_pdf (.ok ["page one", "page two"])
        = .ok "page one\n\npage two" := by
  refine ⟨by decide, ?_⟩
  have := extract_joins_pages ["page one", "page two"] (by decide)
  rw [this]
  rfl

/-! ## Claim C2: empty extracted text short-circuits the remote call -/

/-- C2: when the extracted text is empty or whitespace-only (its strip is
empty), the scan fails with the empty-content error and performs zero remote
calls. -/
theorem scan_empty_text_no_remote_call (t : String) (remote : Except String String)
    (h : pyStrip t = "") :
    scan_invoice (.ok t) remote = (.error .noExtractableText, 0) := by
  simp [scan_invoice, h]

/-- Witness for `scan_empty_text_no_remote_call` on a whitespace-only text. -/
theorem scan_empty_text_no_remote_call_witness :
    pyStrip " \t\n " = ""
    ∧ scan_invoice (.ok " \t\n ") (.ok "\x7b\x7d") = (.error .noExtractableText, 0) :=
  ⟨rfl, scan_empty_text_no_remote_call " \t\n " (.ok "\x7b\x7d") rfl⟩

/-! ## Claim C3: the two failure modes of the structured extractor -/

/-- C3: a response whose fence-stripped text fails to parse as JSON yields
the response-format error, and a failed remote call yields the service-call
error; in both cases exactly one remote call is made (no retry). -/
theorem parse_error_conditions (content errMsg : String)
    (h : loads (strip_code_fences content) = none) :
    parse_invoice_to_json (.ok content) = (.error .jsonDecodeError, 1)
    ∧ parse_invoice_to_json (.error errMsg) = (.error (.apiCallError errMsg), 1) := by
  constructor
  · simp [parse_invoice_to_json, h]
  · rfl

/-- Witness for `parse_error_conditions` at the spec's own example input. -/
theorem parse_error_conditions_witness :
    loads (strip_code_fences "not json at all") = none
    ∧ parse_invoice_to_json (.ok "not json at all") = (.error .jsonDecodeError, 1)
    ∧ parse_invoice_to_json (.error "network down")
        = (.error (.apiCallError "network down"), 1) := by
  refine ⟨rfl, ?_⟩
  exact parse_error_conditions "not json at all" "network down" rfl

/-! ## Claim C6: the fenced example response -/

/-- C6: the post-processor turns the fenced response
`\`\`\`json\n\x7b"total": 10\x7d\n\`\`\`` into exactly the object with the
single member `total = 10`. -/
theorem fence_json_example :
    loads (strip_code_fences "```json\n\x7b\"total\": 10\x7d\n```")
      = some (.obj [("total", .num 10)]) := by
  rfl

/-! ## Claim C7: missing input file -/

/-- C7: when the input path is not a file, the CLI exits with status 1,
prints the file-not-found message to stderr, and attempts neither extraction
nor any remote call. -/
theorem main_missing_file (args : Args) (env : Env)
    (h : env.isfile args.pdf_file = false) :
    cliMain args env =
      { exitCode := 1, stdout := [],
        stderrOut := ["Error: PDF file not found: " ++ args.pdf_file],
        fileWrites := [], extractCalls := 0, remoteCalls := 0 } := by
  simp [cliMain, h]

/-- Witness for `main_missing_file` at a concrete missing path. -/
theorem main_missing_file_witness :
    (Env.mk (fun _ => false) (fun _ => some "k") (.ok ["x"]) (.ok "[1]")).isfile
        (Args.mk "gone.pdf" none false none).pdf_file = false
    ∧ cliMain (Args.mk "gone.pdf" none false none)
        (Env.mk (fun _ => false) (fun _ => some "k") (.ok ["x"]) (.ok "[1]")) =
      { exitCode := 1, stdout := [],
        stderrOut := ["Error: PDF file not found: gone.pdf"],
        fileWrites := [], extractCalls := 0, remoteCalls := 0 } :=
  ⟨rfl, main_missing_file (Args.mk "gone.pdf" none false none)
    (Env.mk (fun _ => false) (fun _ => some "k") (.ok ["x"]) (.ok "[1]")) rfl⟩

/-! ## Claim C8: missing credential -/

/-- C8: when neither the explicit `--api-key` argument nor the
`OPENAI_API_KEY` environment variable provides a (non-empty) credential,
construction fails with the configuration error, and an invocation reaching
construction exits with status 1 having attempted neither extraction nor any
remote call. -/
theorem init_missing_key (args : Args) (env : Env)
    (hk : args.api_key = none ∨ args.api_key = some "")
    (he : env.getenv "OPENAI_API_KEY" = none ∨ env.getenv "OPENAI_API_KEY" = some "")
    (hf : env.isfile args.pdf_file = true) :
    scannerInit args.api_key env.getenv = .error .apiKeyMissing
    ∧ (cliMain args env).exitCode = 1
    ∧ (cliMain args env).extractCalls = 0
    ∧ (cliMain args env).remoteCalls = 0 := by
  have hinit : scannerInit args.api_key env.getenv = .error .apiKeyMissing := by
    rcases hk with hk | hk <;> rcases he with he | he <;> simp [scannerInit, hk, he]
  refine ⟨hinit, ?_, ?_, ?_⟩ <;> simp [cliMain, hf, hinit]

/-- Witness for `init_missing_key`: no argument, unset variable. -/
theorem init_missing_key_witness :
    ((Args.mk "a.pdf" none false none).api_key = none
      ∨ (Args.mk "a.pdf" none false none).api_key = some "")
    ∧ scannerInit none (fun _ => none) = .error .apiKeyMissing
    ∧ (cliMain (Args.mk "a.pdf" none false none)
        (Env.mk (fun _ => true) (fun _ => none) (.ok ["x"]) (.ok "[1]"))).exitCode = 1 := by
  refine ⟨Or.inl rfl, ?_⟩
  have := init_missing_key (Args.mk "a.pdf" none false none)
    (Env.mk (fun _ => true) (fun _ => none) (.ok ["x"]) (.ok "[1]"))
    (Or.inl rfl) (Or.inl rfl) rfl
  exact ⟨this.1, this.2.1⟩

/-! ## Claim C10: short fenced texts pass through unchanged -/

/-- C10: a trimmed text that begins with a code fence but has at most two
lines is left entirely unchanged by the post-processor. -/
theorem short_fence_unchanged (s : String)
    (h1 : pyStartsWith (pyStrip s) "```" = true)
    (h2 : (pySplitNl (pyStrip s)).length ≤ 2) :
    strip_code_fences s = pyStrip s := by
  have hlen : ¬ ((pySplitNl (pyStrip s)).length > 2) := by omega
  simp [strip_code_fences, h1, hlen, not_json_of_fence _ h1]

/-- Witness for `short_fence_unchanged` at a two-line fence-only text. -/
theorem short_fence_unchanged_witness :
    pyStartsWith (pyStrip "```x\n```") "```" = true
    ∧ (pySplitNl (pyStrip "```x\n```")).length ≤ 2
    ∧ strip_code_fences "```x\n```" = pyStrip "```x\n```" :=
  ⟨rfl, by decide, short_fence_unchanged "```x\n```" rfl (by decide)⟩

/-! ## Claim C1: the fence-stripping contract (corrected) -/

/-- Counterexample to C1 as stated: on the two-line response made of an
opening and a closing fence, the claim mandates dropping the first and last
lines (leaving the empty text), but the post-processor leaves the text
unchanged. -/
theorem fence_claim_counterexample :
    strip_code_fences "```\n```" = "```\n```"
    ∧ claimFenceStrip "```\n```" = ""
    ∧ strip_code_fences "```\n```" ≠ claimFenceStrip "```\n```" := by
  refine ⟨rfl, rfl, ?_⟩
  decide

/-- C1 as amended: after trimming, a text beginning with a code fence has
its first and last lines dropped only when it has more than two lines, after
which a remaining text beginning with `json` has those four characters
dropped and the result trimmed again; with at most two lines the text is
left unchanged. -/
theorem strip_code_fences_amended (s : String)
    (h : pyStartsWith (pyStrip s) "```" = true) :
    strip_code_fences s =
      if (pySplitNl (pyStrip s)).length > 2 then
        (let body := pyJoin "\n" (((pySplitNl (pyStrip s)).drop 1).dropLast)
         if pyStartsWith body "json" then pyStrip (strDropN body 4) else body)
      else pyStrip s := by
  by_cases hlen : (pySplitNl (pyStrip s)).length > 2
  · simp [strip_code_fences, h, hlen]
  · simp [strip_code_fences, h, hlen, not_json_of_fence _ h]

/-- Witness for `strip_code_fences_amended` at the canonical fenced
response. -/
theorem strip_code_fences_amended_witness :
    pyStartsWith (pyStrip "```json\n\x7b\x7d\n```") "```" = true
    ∧ strip_code_fences "```json\n\x7b\x7d\n```" =
        if (pySplitNl (pyStrip "```json\n\x7b\x7d\n```")).length > 2 then
          (let body := pyJoin "\n"
            (((pySplitNl (pyStrip "```json\n\x7b\x7d\n```")).drop 1).dropLast)
           if pyStartsWith body "json" then pyStrip (strDropN body 4) else body)
        else pyStrip "```json\n\x7b\x7d\n```" :=
  ⟨rfl, strip_code_fences_amended "```json\n\x7b\x7d\n```" rfl⟩

/-! ## Claim C9: non-object JSON values are accepted -/

/-- C9: a model response whose fence-stripped text parses as a JSON value
that is not an object is nevertheless returned as a successful result, and
an invocation reaching it serializes the value and exits with status 0. -/
theorem non_object_accepted (txt t k : String) (v : Json) (args : Args) (env : Env)
    (hjson : loads (strip_code_fences txt) = some v)
    (_hobj : v.isObj = false)
    (hfile : env.isfile args.pdf_file = true)
    (hkey : scannerInit args.api_key env.getenv = .ok k)
    (hx : extract_text_from_pdf env.pdfRead = .ok t)
    (ht : ¬ pyStrip t = "")
    (hremote : env.remote = .ok txt)
    (hout : args.output = none) :
    parse_invoice_to_json env.remote = (.ok v, 1)
    ∧ (cliMain args env).exitCode = 0
    ∧ (if args.pretty then dumpsPretty v else dumpsMin v) ∈ (cliMain args env).stdout := by
  have hp : parse_invoice_to_json env.remote = (.ok v, 1) := by
    simp [parse_invoice_to_json, hremote, hjson]
  have hs : scan_invoice (extract_text_from_pdf env.pdfRead) env.remote = (.ok v, 1) := by
    simp [scan_invoice, hx, ht, hp]
  refine ⟨hp, ?_, ?_⟩ <;> simp [cliMain, hfile, hkey, hs, hout]

/-- Witness for `non_object_accepted`: the response is a JSON array. -/
theorem non_object_accepted_witness :
    loads (strip_code_fences "[1, 2]") = some (.arr [.num 1, .num 2])
    ∧ (Json.arr [.num 1, .num 2]).isObj = false
    ∧ parse_invoice_to_json (Env.mk (fun _ => true) (fun _ => none)
        (.ok ["invoice text"]) (.ok "[1, 2]")).remote = (.ok (.arr [.num 1, .num 2]), 1)
    ∧ (cliMain (Args.mk "a.pdf" none false (some "k"))
        (Env.mk (fun _ => true) (fun _ => none)
          (.ok ["invoice text"]) (.ok "[1, 2]"))).exitCode = 0 := by
  refine ⟨rfl, rfl, ?_⟩
  have := non_object_accepted "[1, 2]" "invoice text" "k" (.arr [.num 1, .num 2])
    (Args.mk "a.pdf" none false (some "k"))
    (Env.mk (fun _ => true) (fun _ => none) (.ok ["invoice text"]) (.ok "[1, 2]"))
    rfl rfl rfl rfl rfl (by decide) rfl rfl
  exact ⟨this.1, this.2.1⟩
